import Mathlib

/-!
Verification development for `turbodataminer/ui/scoping/scopetable.py`.

The file shallowly embeds the Jython module: `BaseScopeDataModel` becomes a
record of the fields `_header`, `_content`, `_column_count`, `_row_count`;
its methods become pure functions on that record.  Python list indexing
(including negative indices) is modelled by `pyIdx`/`pyGet`/`pySet`; an
uncaught Python exception is modelled by `Option`/`Except` results.  The
Swing notification calls (`fireTableStructureChanged`, `fireTableRowsInserted`,
`fireTableCellUpdated`) only signal the view and do not touch the model
state, so they have no counterpart in the state transformers.  The
`ScopeTable` context-menu handlers become functions of the bound data model;
the view-supplied selection and the `convertRowIndexToModel` translation are
passed as explicit arguments.
-/

/-- Cell values as the Jython code can see them: Python booleans, ints,
floats (kept abstract as rationals; the module never computes with them),
strings, `None`, and any other host object (identified by a tag). -/
inductive PyVal where
  | bool (b : Bool)
  | int (n : Int)
  | float (x : Rat)
  | str (s : String)
  | pynone
  | obj (tag : Nat)
deriving DecidableEq

/-- Python truthiness, used by the `not value` expression in
`_invert_selection_menu_pressed`. -/
def truthy : PyVal → Bool
  | PyVal.bool b => b
  | PyVal.int n => decide (n ≠ 0)
  | PyVal.float x => decide (x ≠ 0)
  | PyVal.str s => decide (s.length ≠ 0)
  | PyVal.pynone => false
  | PyVal.obj _ => true

/-- Python `not value`: always yields a bool. -/
def pyNot (v : PyVal) : PyVal := PyVal.bool (!truthy v)

/-- The `java.lang` classes `get_type_at` can return. -/
inductive JavaClass where
  | Boolean
  | Float
  | Integer
  | Date
  | String
deriving DecidableEq

/-- Python exceptions that can escape the embedded methods. -/
inductive PyErr where
  | indexError
  | typeError
deriving DecidableEq

/-- Decidable equality on `Except` results, so concrete runs of the fallible
operations can be checked by `decide`. -/
instance {ε α : Type} [DecidableEq ε] [DecidableEq α] : DecidableEq (Except ε α) := fun a b =>
  match a, b with
  | Except.error e1, Except.error e2 =>
    if h : e1 = e2 then isTrue (by rw [h]) else isFalse (fun hc => h (Except.error.inj hc))
  | Except.error _, Except.ok _ => isFalse (fun hc => Except.noConfusion hc)
  | Except.ok _, Except.error _ => isFalse (fun hc => Except.noConfusion hc)
  | Except.ok a1, Except.ok a2 =>
    if h : a1 = a2 then isTrue (by rw [h]) else isFalse (fun hc => h (Except.ok.inj hc))

/-- A negative Python index counts from the end of the list. -/
def pyNormIdx (len : Nat) (i : Int) : Int :=
  if i < 0 then (len : Int) + i else i

/-- Python list-index resolution; `none` means `IndexError`. -/
def pyIdx (len : Nat) (i : Int) : Option Nat :=
  if 0 ≤ pyNormIdx len i ∧ pyNormIdx len i < (len : Int) then
    some (pyNormIdx len i).toNat
  else none

/-- Python `l[i]` (read). -/
def pyGet {α : Type} (l : List α) (i : Int) : Option α :=
  match pyIdx l.length i with
  | some j => l[j]?
  | none => none

/-- Python `l[i] = v` (write); `none` means `IndexError`. -/
def pySet {α : Type} (l : List α) (i : Int) (v : α) : Option (List α) :=
  match pyIdx l.length i with
  | some j => some (l.set j v)
  | none => none

/-- The state of `BaseScopeDataModel`: its four instance attributes. -/
structure BaseScopeDataModel where
  header : List String
  content : List (List PyVal)
  column_count : Nat
  row_count : Nat
deriving DecidableEq

namespace BaseScopeDataModel

/-- `BaseScopeDataModel.__init__(header, content)`: prepend `"Process"` to the
header, prepend a `False` flag to every content row, cache both counts. -/
def init (header : List String) (content : List (List PyVal)) : BaseScopeDataModel :=
  { header := "Process" :: header
    content := content.map (fun item => PyVal.bool false :: item)
    column_count := ("Process" :: header).length
    row_count := (content.map (fun item => PyVal.bool false :: item)).length }

/-- `set_header(columns)`: note the source assigns
`self._column_count = len(columns)`, not `len(self._header)`. -/
def set_header (m : BaseScopeDataModel) (columns : List String) : BaseScopeDataModel :=
  { m with
    header := "Process" :: columns
    column_count := columns.length
    row_count := m.content.length }

/-- `set_content(rows)`: replace all rows, prepending a fresh `False` flag. -/
def set_content (m : BaseScopeDataModel) (rows : List (List PyVal)) : BaseScopeDataModel :=
  { m with
    content := rows.map (fun item => PyVal.bool false :: item)
    row_count := (rows.map (fun item => PyVal.bool false :: item)).length }

/-- `getRowCount`: returns the cached `_row_count`; the `try/except` around
the attribute read makes the method total. -/
def getRowCount (m : BaseScopeDataModel) : Nat := m.row_count

/-- `getColumnCount`: returns the cached `_column_count`; total for the same
reason as `getRowCount`. -/
def getColumnCount (m : BaseScopeDataModel) : Nat := m.column_count

/-- `getColumnName(column_index)`: inside `try`, if
`column_index < len(self._header)` return `self._header[column_index]`
(Python indexing; an `IndexError` from a very negative index is caught and
falls through); otherwise fall through to `return None`. -/
def getColumnName (m : BaseScopeDataModel) (column_index : Int) : Option String :=
  if column_index < (m.header.length : Int) then pyGet m.header column_index else none

/-- `getValueAt(row_index, column_index)`: unguarded double indexing;
`none` is an uncaught `IndexError`. -/
def getValueAt (m : BaseScopeDataModel) (row_index column_index : Int) : Option PyVal :=
  match pyGet m.content row_index with
  | some row => pyGet row column_index
  | none => none

/-- `isCellEditable(row_index, column_index)`: `column_index == 0`. -/
def isCellEditable (m : BaseScopeDataModel) (row_index column_index : Int) : Bool :=
  column_index == 0

/-- `setValueAt(value, row_index, column_index)`: in-place write
`self._content[row_index][column_index] = value`; either index out of range
raises `IndexError`. -/
def setValueAt (m : BaseScopeDataModel) (value : PyVal) (row_index column_index : Int) :
    Except PyErr BaseScopeDataModel :=
  match pyGet m.content row_index with
  | none => Except.error PyErr.indexError
  | some row =>
    match pySet row column_index value with
    | none => Except.error PyErr.indexError
    | some row2 =>
      match pySet m.content row_index row2 with
      | none => Except.error PyErr.indexError
      | some content2 => Except.ok { m with content := content2 }

/-- `get_type_at(column_index)`: samples `self._content[0][column_index]`
when `self._row_count >= 1`.  The chain of `isinstance` tests recognises
`bool`, `float`, `int`; after those, the source evaluates
`isinstance(value, time)` where `time` is the imported module, not a class,
which raises `TypeError` (and the `Date` in that branch is an unresolved
name anyway).  So any other sampled value makes the method raise. -/
def get_type_at (m : BaseScopeDataModel) (column_index : Int) : Except PyErr JavaClass :=
  if m.row_count ≥ 1 then
    match pyGet m.content 0 with
    | none => Except.error PyErr.indexError
    | some row0 =>
      match pyGet row0 column_index with
      | none => Except.error PyErr.indexError
      | some value =>
        match value with
        | PyVal.bool _ => Except.ok JavaClass.Boolean
        | PyVal.float _ => Except.ok JavaClass.Float
        | PyVal.int _ => Except.ok JavaClass.Integer
        | _ => Except.error PyErr.typeError
  else
    Except.ok JavaClass.String

/-- `getColumnClass(column_index)`: delegates to `get_type_at`. -/
def getColumnClass (m : BaseScopeDataModel) (column_index : Int) : Except PyErr JavaClass :=
  get_type_at m column_index

end BaseScopeDataModel

namespace ScopeTable

open BaseScopeDataModel

/-- The body of the loops in `_update_all_rows` and `_update_selected_rows`:
run `setValueAt(value, i, 0)` for each index in turn, stopping at the first
uncaught exception. -/
def run_flag_updates (m : BaseScopeDataModel) (value : PyVal) (idxs : List Int) :
    Except PyErr BaseScopeDataModel :=
  match idxs with
  | [] => Except.ok m
  | i :: rest =>
    match setValueAt m value i 0 with
    | Except.error e => Except.error e
    | Except.ok m2 => run_flag_updates m2 value rest

/-- `_update_all_rows(value)`: `for i in range(0, self.data_model.getRowCount())`,
then `setValueAt(value, i, 0)`. -/
def update_all_rows (m : BaseScopeDataModel) (value : PyVal) :
    Except PyErr BaseScopeDataModel :=
  run_flag_updates m value ((List.range (getRowCount m)).map (fun j : Nat => (j : Int)))

/-- Context-menu action "Check all rows". -/
def select_all_menu_pressed (m : BaseScopeDataModel) : Except PyErr BaseScopeDataModel :=
  update_all_rows m (PyVal.bool true)

/-- Context-menu action "Uncheck all rows". -/
def unselect_all_menu_pressed (m : BaseScopeDataModel) : Except PyErr BaseScopeDataModel :=
  update_all_rows m (PyVal.bool false)

/-- `_update_selected_rows(value)`: the view reports `getSelectedRows()` and
`convertRowIndexToModel`; both are host-toolkit inputs, passed here as the
`selected_rows` list and the `convert` translation. -/
def update_selected_rows (m : BaseScopeDataModel) (value : PyVal)
    (selected_rows : List Int) (convert : Int → Int) : Except PyErr BaseScopeDataModel :=
  run_flag_updates m value (selected_rows.map convert)

/-- Context-menu action "Check all selected rows". -/
def select_all_selected_menu_pressed (m : BaseScopeDataModel)
    (selected_rows : List Int) (convert : Int → Int) : Except PyErr BaseScopeDataModel :=
  update_selected_rows m (PyVal.bool true) selected_rows convert

/-- Context-menu action "Uncheck all selected rows". -/
def unselect_all_selected_menu_pressed (m : BaseScopeDataModel)
    (selected_rows : List Int) (convert : Int → Int) : Except PyErr BaseScopeDataModel :=
  update_selected_rows m (PyVal.bool false) selected_rows convert

/-- The loop of `_invert_selection_menu_pressed`: read `getValueAt(i, 0)`,
write `setValueAt(not value, i, 0)` for each index in turn. -/
def invert_rows (m : BaseScopeDataModel) (idxs : List Int) :
    Except PyErr BaseScopeDataModel :=
  match idxs with
  | [] => Except.ok m
  | i :: rest =>
    match getValueAt m i 0 with
    | none => Except.error PyErr.indexError
    | some value =>
      match setValueAt m (pyNot value) i 0 with
      | Except.error e => Except.error e
      | Except.ok m2 => invert_rows m2 rest

/-- Context-menu action "Invert selection". -/
def invert_selection_menu_pressed (m : BaseScopeDataModel) :
    Except PyErr BaseScopeDataModel :=
  invert_rows m ((List.range (getRowCount m)).map (fun j : Nat => (j : Int)))

/-- `set_model(header, rows)`: `set_header` then `set_content`. -/
def set_model (m : BaseScopeDataModel) (header : List String)
    (rows : List (List PyVal)) : BaseScopeDataModel :=
  set_content (set_header m header) rows

end ScopeTable

/-- The invariant claimed in the spec, relative to the caller-supplied column
names `columns` (the stored header additionally holds `"Process"` at
position 0): every row has exactly `column_count` cells and
`column_count = 1 + len(columns)`. -/
def claimedInvariant (m : BaseScopeDataModel) (columns : List String) : Prop :=
  (∀ row ∈ m.content, row.length = m.column_count) ∧
    m.column_count = 1 + columns.length

/-- Effect of `setValueAt(v, i, 0)` on a row: replace the flag cell. -/
def set_flag (v : PyVal) : List PyVal → List PyVal
  | [] => []
  | _ :: xs => v :: xs

/-- Effect of one `_invert_selection_menu_pressed` step on a row: negate the
flag cell. -/
def flip_flag : List PyVal → List PyVal
  | [] => []
  | x :: xs => pyNot x :: xs

section ListHelpers

variable {α : Type}

/-- A property preserved by `List.set` when the new element satisfies it. -/
lemma forall_mem_set {p : α → Prop} {l : List α} {i : Nat} {a : α}
    (h : ∀ x ∈ l, p x) (ha : p a) : ∀ x ∈ l.set i a, p x := by
  intro x hx
  rcases List.mem_or_eq_of_mem_set hx with h1 | h1
  · exact h x h1
  · rw [h1]; exact ha

end ListHelpers

/-- Resolving a nonnegative index is plain bounds checking. -/
lemma pyIdx_natCast (len j : Nat) : pyIdx len (j : Int) = if j < len then some j else none := by
  have h0 : pyNormIdx len (j : Int) = (j : Int) := by
    unfold pyNormIdx
    rw [if_neg (by omega)]
  unfold pyIdx
  rw [h0]
  by_cases h : j < len
  · rw [if_pos (by omega), if_pos h, Int.toNat_natCast]
  · rw [if_neg (by omega), if_neg h]

/-- Reading at a nonnegative index agrees with list lookup. -/
lemma pyGet_natCast (l : List α) (j : Nat) : pyGet l (j : Int) = l[j]? := by
  unfold pyGet
  rw [pyIdx_natCast]
  by_cases h : j < l.length
  · rw [if_pos h]
  · rw [if_neg h]
    exact (List.getElem?_eq_none (Nat.le_of_not_lt h)).symm

/-- Writing at a nonnegative index agrees with `List.set` under the bound. -/
lemma pySet_natCast (l : List α) (j : Nat) (v : α) :
    pySet l (j : Int) v = if j < l.length then some (l.set j v) else none := by
  unfold pySet
  rw [pyIdx_natCast]
  by_cases h : j < l.length
  · rw [if_pos h, if_pos h]
  · rw [if_neg h, if_neg h]

/-- Setting index 0 of a row is `set_flag` (both leave `[]` unchanged). -/
lemma set_zero_flag (v : PyVal) (row : List PyVal) : row.set 0 v = set_flag v row := by
  cases row <;> rfl

/-- `set_flag` keeps the row length. -/
lemma set_flag_length (v : PyVal) (row : List PyVal) : (set_flag v row).length = row.length := by
  cases row <;> rfl

/-- `set_flag` keeps a row nonempty. -/
lemma set_flag_ne_nil (v : PyVal) (row : List PyVal) (h : row ≠ []) : set_flag v row ≠ [] := by
  cases row with
  | nil => exact absurd rfl h
  | cons x xs => simp [set_flag]

/-- `set_flag` is idempotent. -/
lemma set_flag_idem (v : PyVal) (row : List PyVal) : set_flag v (set_flag v row) = set_flag v row := by
  cases row <;> rfl

/-- Cells outside column 0 are untouched by `set_flag`. -/
lemma set_flag_getElem_ne (v : PyVal) (row : List PyVal) (c : Nat) (hc : c ≠ 0) :
    (set_flag v row)[c]? = row[c]? := by
  cases row with
  | nil => rfl
  | cons x xs =>
    cases c with
    | zero => exact absurd rfl hc
    | succ c => simp [set_flag]

/-- The flag cell after `set_flag`. -/
lemma set_flag_getElem_zero (v : PyVal) (row : List PyVal) (h : row ≠ []) :
    (set_flag v row)[0]? = some v := by
  cases row with
  | nil => exact absurd rfl h
  | cons x xs => simp [set_flag]

/-- `flip_flag` keeps the row length. -/
lemma flip_flag_length (row : List PyVal) : (flip_flag row).length = row.length := by
  cases row <;> rfl

/-- Cells outside column 0 are untouched by `flip_flag`. -/
lemma flip_flag_getElem_ne (row : List PyVal) (c : Nat) (hc : c ≠ 0) :
    (flip_flag row)[c]? = row[c]? := by
  cases row with
  | nil => rfl
  | cons x xs =>
    cases c with
    | zero => exact absurd rfl hc
    | succ c => simp [flip_flag]

/-- Flipping twice restores a row whose flag cell is a Python bool. -/
lemma flip_flag_flip_flag (row : List PyVal) (b : Bool) (t : List PyVal)
    (h : row = PyVal.bool b :: t) : flip_flag (flip_flag row) = row := by
  subst h
  simp [flip_flag, pyNot, truthy]

open BaseScopeDataModel ScopeTable

/-- `getValueAt` at nonnegative indices is nested list lookup. -/
lemma getValueAt_natCast (m : BaseScopeDataModel) (r c : Nat) :
    getValueAt m (r : Int) (c : Int) = (m.content[r]?).bind (fun row => row[c]?) := by
  unfold BaseScopeDataModel.getValueAt
  rw [pyGet_natCast]
  cases m.content[r]? with
  | none => rfl
  | some row => exact pyGet_natCast row c

/-- `setValueAt` at a valid row index and column 0 replaces the flag cell. -/
lemma setValueAt_flag (m : BaseScopeDataModel) (v : PyVal) (j : Nat)
    (hj : j < m.content.length) (hrow : m.content[j] ≠ []) :
    setValueAt m v (j : Int) 0 =
      Except.ok { m with content := m.content.set j (set_flag v m.content[j]) } := by
  have h1 : pyGet m.content (j : Int) = some (m.content[j]) := by
    rw [pyGet_natCast]
    exact List.getElem?_eq_getElem hj
  have h2 : pySet (m.content[j]) (0 : Int) v = some (set_flag v (m.content[j])) := by
    have h0 : ((0 : Nat) : Int) = (0 : Int) := rfl
    rw [← h0, pySet_natCast, if_pos (List.length_pos.mpr hrow), set_zero_flag]
  have h3 : pySet m.content (j : Int) (set_flag v (m.content[j])) =
      some (m.content.set j (set_flag v (m.content[j]))) := by
    rw [pySet_natCast, if_pos hj]
  simp only [BaseScopeDataModel.setValueAt, h1, h2, h3]

/-- Pointwise description of the `_update_all_rows`/`_update_selected_rows`
loop over an arbitrary list of (nonnegative) row indices. -/
lemma run_flag_updates_ok (v : PyVal) (js : List Nat) :
    ∀ (m : BaseScopeDataModel),
      (∀ j ∈ js, j < m.content.length) →
      (∀ r ∈ m.content, r ≠ []) →
      ∃ c2, run_flag_updates m v (js.map (fun j : Nat => (j : Int))) =
          Except.ok { m with content := c2 } ∧
        c2.length = m.content.length ∧
        ∀ k : Nat, c2[k]? = if k ∈ js then (m.content[k]?).map (set_flag v) else m.content[k]? := by
  induction js with
  | nil =>
    intro m _ _
    exact ⟨m.content, rfl, rfl, fun k => by simp⟩
  | cons j rest ih =>
    intro m hbound hrows
    have hj : j < m.content.length := hbound j (List.mem_cons_self j rest)
    have hrow : m.content[j] ≠ [] := hrows _ (List.getElem_mem hj)
    have hstep := setValueAt_flag m v j hj hrow
    obtain ⟨c2, hrun, hlen, hpt⟩ :=
      ih { m with content := m.content.set j (set_flag v m.content[j]) }
        (by
          intro j2 hj2
          simpa using hbound j2 (List.mem_cons.mpr (Or.inr hj2)))
        (by
          intro r hr
          exact forall_mem_set hrows (set_flag_ne_nil v _ hrow) r hr)
    refine ⟨c2, ?_, ?_, ?_⟩
    · simp only [List.map_cons, run_flag_updates, hstep]
      exact hrun
    · simpa using hlen
    · intro k
      rw [hpt k]
      by_cases hk : k ∈ rest
      · rw [if_pos hk, if_pos (List.mem_cons.mpr (Or.inr hk))]
        by_cases hkj : k = j
        · subst hkj
          simp [List.getElem?_set_self hj, List.getElem?_eq_getElem hj, set_flag_idem]
        · simp [List.getElem?_set_ne (fun he => hkj he.symm)]
      · rw [if_neg hk]
        by_cases hkj : k = j
        · subst hkj
          rw [if_pos (List.mem_cons_self k rest)]
          simp [List.getElem?_set_self hj, List.getElem?_eq_getElem hj]
        · rw [if_neg (fun hmem => by
            rcases List.mem_cons.mp hmem with h1 | h1
            · exact hkj h1
            · exact hk h1)]
          simp [List.getElem?_set_ne (fun he => hkj he.symm)]

/-- One step of the invert loop on a concrete cons row is a `flip_flag`. -/
lemma set_flag_pyNot (x : PyVal) (xs : List PyVal) :
    set_flag (pyNot x) (x :: xs) = flip_flag (x :: xs) := rfl

/-- Pointwise description of the `_invert_selection_menu_pressed` loop over a
duplicate-free list of (nonnegative) row indices. -/
lemma invert_rows_ok (js : List Nat) :
    ∀ (m : BaseScopeDataModel),
      js.Nodup →
      (∀ j ∈ js, j < m.content.length) →
      (∀ r ∈ m.content, r ≠ []) →
      ∃ c2, invert_rows m (js.map (fun j : Nat => (j : Int))) =
          Except.ok { m with content := c2 } ∧
        c2.length = m.content.length ∧
        ∀ k : Nat, c2[k]? = if k ∈ js then (m.content[k]?).map flip_flag else m.content[k]? := by
  induction js with
  | nil =>
    intro m _ _ _
    exact ⟨m.content, rfl, rfl, fun k => by simp⟩
  | cons j rest ih =>
    intro m hnd hbound hrows
    have hj : j < m.content.length := hbound j (List.mem_cons_self j rest)
    have hrow : m.content[j] ≠ [] := hrows _ (List.getElem_mem hj)
    obtain ⟨x, xs, hc⟩ : ∃ x xs, m.content[j] = x :: xs := by
      cases hcc : m.content[j] with
      | nil => exact absurd hcc hrow
      | cons x xs => exact ⟨x, xs, rfl⟩
    have hread : getValueAt m (j : Int) (0 : Int) = some x := by
      have h0 : ((0 : Nat) : Int) = (0 : Int) := rfl
      rw [← h0, getValueAt_natCast, List.getElem?_eq_getElem hj, hc]
      simp
    have hstep : setValueAt m (pyNot x) (j : Int) 0 =
        Except.ok { m with content := m.content.set j (flip_flag (m.content[j])) } := by
      rw [setValueAt_flag m (pyNot x) j hj hrow, hc, set_flag_pyNot, ← hc]
    have hjrest : j ∉ rest := (List.nodup_cons.mp hnd).1
    obtain ⟨c2, hrun, hlen, hpt⟩ :=
      ih { m with content := m.content.set j (flip_flag (m.content[j])) }
        (List.nodup_cons.mp hnd).2
        (by
          intro j2 hj2
          simpa using hbound j2 (List.mem_cons.mpr (Or.inr hj2)))
        (by
          intro r hr
          refine forall_mem_set hrows ?_ r hr
          rw [hc]
          simp [flip_flag])
    refine ⟨c2, ?_, ?_, ?_⟩
    · simp only [List.map_cons, invert_rows, hread, hstep]
      exact hrun
    · simpa using hlen
    · intro k
      rw [hpt k]
      by_cases hk : k ∈ rest
      · rw [if_pos hk, if_pos (List.mem_cons.mpr (Or.inr hk))]
        have hkj : k ≠ j := fun he => hjrest (he ▸ hk)
        simp [List.getElem?_set_ne (fun he => hkj he.symm)]
      · rw [if_neg hk]
        by_cases hkj : k = j
        · subst hkj
          rw [if_pos (List.mem_cons_self k rest)]
          simp [List.getElem?_set_self hj, List.getElem?_eq_getElem hj]
        · rw [if_neg (fun hmem => by
            rcases List.mem_cons.mp hmem with h1 | h1
            · exact hkj h1
            · exact hk h1)]
          simp [List.getElem?_set_ne (fun he => hkj he.symm)]

/-- `getColumnName` at a nonnegative index is plain list lookup. -/
lemma getColumnName_natCast (m : BaseScopeDataModel) (j : Nat) :
    getColumnName m (j : Int) = m.header[j]? := by
  unfold BaseScopeDataModel.getColumnName
  by_cases h : j < m.header.length
  · rw [if_pos (by exact_mod_cast h), pyGet_natCast]
  · rw [if_neg (by exact_mod_cast h)]
    exact (List.getElem?_eq_none (Nat.le_of_not_lt h)).symm

/-- `setValueAt` at valid nonnegative indices is a nested `List.set`. -/
lemma setValueAt_natCast (m : BaseScopeDataModel) (v : PyVal) (r c : Nat)
    (hr : r < m.content.length) (hc : c < (m.content[r]).length) :
    setValueAt m v (r : Int) (c : Int) =
      Except.ok { m with content := m.content.set r ((m.content[r]).set c v) } := by
  have h1 : pyGet m.content (r : Int) = some (m.content[r]) := by
    rw [pyGet_natCast]
    exact List.getElem?_eq_getElem hr
  have h2 : pySet (m.content[r]) (c : Int) v = some ((m.content[r]).set c v) := by
    rw [pySet_natCast, if_pos hc]
  have h3 : pySet m.content (r : Int) ((m.content[r]).set c v) =
      some (m.content.set r ((m.content[r]).set c v)) := by
    rw [pySet_natCast, if_pos hr]
  simp only [BaseScopeDataModel.setValueAt, h1, h2, h3]

/-- Inversion of a successful `pyGet`. -/
lemma pyGet_some {α : Type} (l : List α) (i : Int) (x : α) (h : pyGet l i = some x) :
    ∃ j, pyIdx l.length i = some j ∧ j < l.length ∧ l[j]? = some x := by
  unfold pyGet at h
  cases hidx : pyIdx l.length i with
  | none => rw [hidx] at h; exact absurd h (by simp)
  | some j =>
    rw [hidx] at h
    replace h : l[j]? = some x := h
    refine ⟨j, rfl, ?_, h⟩
    by_contra hlt
    rw [List.getElem?_eq_none (Nat.le_of_not_lt hlt)] at h
    exact Option.noConfusion h

/-- Inversion of a successful `pySet`. -/
lemma pySet_some {α : Type} (l : List α) (i : Int) (v : α) (l2 : List α)
    (h : pySet l i v = some l2) :
    ∃ j, pyIdx l.length i = some j ∧ l2 = l.set j v := by
  unfold pySet at h
  cases hidx : pyIdx l.length i with
  | none => rw [hidx] at h; exact absurd h (by simp)
  | some j =>
    rw [hidx] at h
    exact ⟨j, rfl, (Option.some.inj h).symm⟩

/-- C1: a freshly constructed model has column count `h + 1`, row count `n`,
`"Process"` as the name of column 0, and the caller header names shifted by
one. -/
theorem claim_C1 (H : List String) (C : List (List PyVal))
    (hC : ∀ r ∈ C, r.length = H.length) :
    getColumnCount (init H C) = H.length + 1 ∧
    getRowCount (init H C) = C.length ∧
    getColumnName (init H C) 0 = some ("Process") ∧
    ∀ (i : Nat) (hi : i < H.length),
      getColumnName (init H C) ((i : Int) + 1) = some (H[i]) := by
  refine ⟨?_, ?_, ?_, ?_⟩
  · simp [BaseScopeDataModel.init, BaseScopeDataModel.getColumnCount]
  · simp [BaseScopeDataModel.init, BaseScopeDataModel.getRowCount]
  · rw [show (0 : Int) = ((0 : Nat) : Int) from rfl, getColumnName_natCast]
    simp [BaseScopeDataModel.init]
  · intro i hi
    rw [show ((i : Int) + 1) = ((i + 1 : Nat) : Int) by push_cast; ring, getColumnName_natCast]
    simp [BaseScopeDataModel.init, List.getElem?_eq_getElem hi]

/-- C1 witness: the constructed model at a concrete header and content. -/
theorem claim_C1_witness :
    getColumnCount (init ["Name"] [[PyVal.int 1]]) = 2 ∧
    getRowCount (init ["Name"] [[PyVal.int 1]]) = 1 ∧
    getColumnName (init ["Name"] [[PyVal.int 1]]) 0 = some ("Process") ∧
    getColumnName (init ["Name"] [[PyVal.int 1]]) 1 = some ("Name") := by
  have h := claim_C1 ["Name"] [[PyVal.int 1]] (by decide)
  exact ⟨h.1, h.2.1, h.2.2.1, by simpa using h.2.2.2 0 (by decide)⟩

/-- C3: `set_header(columns)` stores `["Process"] + columns`, sets the column
count to `len(columns)` (the source's off-by-one, exactly as the claim
states), leaves the row count (in any reachable state, where the cached row
count matches the stored content) and the content rows unchanged. -/
theorem claim_C3 (m : BaseScopeDataModel) (columns : List String)
    (hrc : m.row_count = m.content.length) :
    (set_header m columns).header = "Process" :: columns ∧
    getColumnCount (set_header m columns) = columns.length ∧
    getRowCount (set_header m columns) = getRowCount m ∧
    (set_header m columns).content = m.content := by
  refine ⟨rfl, rfl, ?_, rfl⟩
  simp [BaseScopeDataModel.set_header, BaseScopeDataModel.getRowCount, hrc]

/-- C3 witness at a concrete model and header. -/
theorem claim_C3_witness :
    (set_header (init ["A"] [[PyVal.int 1]]) ["X", "Y"]).header = "Process" :: ["X", "Y"] ∧
    getColumnCount (set_header (init ["A"] [[PyVal.int 1]]) ["X", "Y"]) = ["X", "Y"].length ∧
    getRowCount (set_header (init ["A"] [[PyVal.int 1]]) ["X", "Y"]) =
      getRowCount (init ["A"] [[PyVal.int 1]]) ∧
    (set_header (init ["A"] [[PyVal.int 1]]) ["X", "Y"]).content =
      (init ["A"] [[PyVal.int 1]]).content :=
  claim_C3 (init ["A"] [[PyVal.int 1]]) ["X", "Y"] (by decide)

/-- C4: after `set_content(C)` the header is unchanged, the row count is the
number of rows of `C`, every flag cell reads `False`, and the remaining cells
mirror `C` shifted one column right. -/
theorem claim_C4 (m : BaseScopeDataModel) (C : List (List PyVal)) :
    (set_content m C).header = m.header ∧
    getRowCount (set_content m C) = C.length ∧
    (∀ (r : Nat) (hr : r < C.length),
      getValueAt (set_content m C) (r : Int) 0 = some (PyVal.bool false)) ∧
    (∀ r c : Nat,
      getValueAt (set_content m C) (r : Int) ((c : Int) + 1) =
        (C[r]?).bind (fun row => row[c]?)) := by
  refine ⟨rfl, ?_, ?_, ?_⟩
  · simp [BaseScopeDataModel.set_content, BaseScopeDataModel.getRowCount]
  · intro r hr
    rw [show (0 : Int) = ((0 : Nat) : Int) from rfl, getValueAt_natCast]
    simp [BaseScopeDataModel.set_content, List.getElem?_map, List.getElem?_eq_getElem hr]
  · intro r c
    rw [show ((c : Int) + 1) = ((c + 1 : Nat) : Int) by push_cast; ring, getValueAt_natCast]
    simp only [BaseScopeDataModel.set_content, List.getElem?_map]
    cases C[r]? with
    | none => rfl
    | some row => simp

/-- C4 witness at a concrete model and content. -/
theorem claim_C4_witness :
    (set_content (init ["A"] [[PyVal.int 1]]) [[PyVal.str ("x")], [PyVal.int 2]]).header =
      (init ["A"] [[PyVal.int 1]]).header ∧
    getRowCount (set_content (init ["A"] [[PyVal.int 1]]) [[PyVal.str ("x")], [PyVal.int 2]]) = 2 ∧
    getValueAt (set_content (init ["A"] [[PyVal.int 1]]) [[PyVal.str ("x")], [PyVal.int 2]]) 0 0 =
      some (PyVal.bool false) ∧
    getValueAt (set_content (init ["A"] [[PyVal.int 1]]) [[PyVal.str ("x")], [PyVal.int 2]]) 1 1 =
      some (PyVal.int 2) := by
  have h := claim_C4 (init ["A"] [[PyVal.int 1]]) [[PyVal.str ("x")], [PyVal.int 2]]
  refine ⟨h.1, h.2.1, ?_, ?_⟩
  · simpa using h.2.2.1 0 (by decide)
  · simpa using h.2.2.2 1 0

/-- C9: the metadata queries are total: the counts come back as cached, and
`getColumnName` returns the header name at any valid (Python) index and
`None` at any other integer. -/
theorem claim_C9 (m : BaseScopeDataModel) :
    getRowCount m = m.row_count ∧
    getColumnCount m = m.column_count ∧
    (∀ i : Int, getColumnName m i = pyGet m.header i) ∧
    (∀ (j : Nat) (hj : j < m.header.length), getColumnName m (j : Int) = some (m.header[j])) ∧
    (∀ i : Int, (m.header.length : Int) ≤ i → getColumnName m i = none) ∧
    (∀ i : Int, i < -(m.header.length : Int) → getColumnName m i = none) := by
  have hge : ∀ i : Int, (m.header.length : Int) ≤ i → pyGet m.header i = none := by
    intro i hi
    unfold pyGet pyIdx pyNormIdx
    rw [if_neg (show ¬ i < 0 by omega),
      if_neg (show ¬ ((0 : Int) ≤ i ∧ i < (m.header.length : Int)) by omega)]
  have hneg : ∀ i : Int, i < -(m.header.length : Int) → pyGet m.header i = none := by
    intro i hi
    unfold pyGet pyIdx pyNormIdx
    rw [if_pos (show i < 0 by omega),
      if_neg (show ¬ ((0 : Int) ≤ (m.header.length : Int) + i ∧
        (m.header.length : Int) + i < (m.header.length : Int)) by omega)]
  refine ⟨rfl, rfl, ?_, ?_, ?_, ?_⟩
  · intro i
    unfold BaseScopeDataModel.getColumnName
    by_cases h : i < (m.header.length : Int)
    · rw [if_pos h]
    · rw [if_neg h, hge i (by omega)]
  · intro j hj
    rw [getColumnName_natCast]
    exact List.getElem?_eq_getElem hj
  · intro i hi
    unfold BaseScopeDataModel.getColumnName
    rw [if_neg (by omega)]
  · intro i hi
    unfold BaseScopeDataModel.getColumnName
    rw [if_pos (by omega), hneg i hi]

/-- C9 witness at a concrete model and several concrete indices. -/
theorem claim_C9_witness :
    getRowCount (init ["A"] []) = (init ["A"] []).row_count ∧
    getColumnName (init ["A"] []) 1 = some ("A") ∧
    getColumnName (init ["A"] []) 5 = none ∧
    getColumnName (init ["A"] []) (-7) = none := by
  have h := claim_C9 (init ["A"] [])
  refine ⟨h.1, ?_, ?_, ?_⟩
  · simpa using h.2.2.2.1 1 (by decide)
  · exact h.2.2.2.2.1 5 (by decide)
  · exact h.2.2.2.2.2 (-7) (by decide)

/-- C10: `setValueAt` never consults `isCellEditable` (which is `False` off
column 0): at any in-range cell it succeeds, overwrites exactly that cell,
and leaves the header, the cached counts, and every other cell unchanged. -/
theorem claim_C10 (m : BaseScopeDataModel) (v : PyVal) (r c : Nat)
    (hr : r < m.content.length) (hc : c < (m.content[r]).length) :
    (c ≠ 0 → isCellEditable m (r : Int) (c : Int) = false) ∧
    ∃ m2, setValueAt m v (r : Int) (c : Int) = Except.ok m2 ∧
      m2.header = m.header ∧
      m2.column_count = m.column_count ∧
      m2.row_count = m.row_count ∧
      m2.content.length = m.content.length ∧
      getValueAt m2 (r : Int) (c : Int) = some v ∧
      ∀ r2 c2 : Nat, ¬ (r2 = r ∧ c2 = c) →
        getValueAt m2 (r2 : Int) (c2 : Int) = getValueAt m (r2 : Int) (c2 : Int) := by
  constructor
  · intro hc0
    have hcc : (c : Int) ≠ 0 := by exact_mod_cast hc0
    simp [BaseScopeDataModel.isCellEditable, hcc]
  · refine ⟨_, setValueAt_natCast m v r c hr hc, rfl, rfl, rfl, ?_, ?_, ?_⟩
    · simp
    · rw [getValueAt_natCast]
      simp [List.getElem?_set_self hr, List.getElem?_set_self hc]
    · intro r2 c2 hne
      rw [getValueAt_natCast, getValueAt_natCast]
      by_cases hr2 : r2 = r
      · subst hr2
        have hc2 : c2 ≠ c := fun he => hne ⟨rfl, he⟩
        rw [List.getElem?_set_self hr, List.getElem?_eq_getElem hr]
        simp [List.getElem?_set_ne (fun he => hc2 he.symm)]
      · simp [List.getElem?_set_ne (fun he => hr2 he.symm)]

/-- C10 witness: overwriting the non-editable cell (0, 1) of a concrete
model succeeds and only changes that cell. -/
theorem claim_C10_witness :
    isCellEditable (init ["A"] [[PyVal.int 1]]) 0 1 = false ∧
    ∃ m2, setValueAt (init ["A"] [[PyVal.int 1]]) (PyVal.str ("zz")) 0 1 = Except.ok m2 ∧
      getValueAt m2 0 1 = some (PyVal.str ("zz")) ∧
      getValueAt m2 0 0 = getValueAt (init ["A"] [[PyVal.int 1]]) 0 0 := by
  have h := claim_C10 (init ["A"] [[PyVal.int 1]]) (PyVal.str ("zz")) 0 1 (by decide) (by decide)
  obtain ⟨m2, heq, _, _, _, _, hval, hframe⟩ := h.2
  exact ⟨by simpa using h.1 (by decide), m2, by simpa using heq, by simpa using hval,
    by simpa using hframe 0 0 (by decide)⟩

/-- C2 counterexample: the invariant holds after a well-shaped construction
but is broken by `set_header`, whose column count drops the `"Process"`
column. -/
theorem claim_C2_counterexample :
    claimedInvariant (init ["A"] [[PyVal.int 5]]) ["A"] ∧
    ¬ claimedInvariant (set_header (init ["A"] [[PyVal.int 5]]) ["A"]) ["A"] := by
  constructor
  · refine ⟨?_, rfl⟩
    intro row hrow
    simp only [BaseScopeDataModel.init, List.map_cons, List.map_nil, List.mem_cons,
      List.not_mem_nil, or_false] at hrow
    rw [hrow]
    rfl
  · intro h
    exact absurd h.2 (by decide)

/-- C2 (amended): for content rows matching the caller header's width the
invariant holds after construction and is preserved by `set_content` (same
condition) and by any successful `setValueAt`; `set_header(columns)` instead
sets the column count to `len(columns)`, one less than the stored header
length. -/
theorem claim_C2_amended :
    (∀ (H : List String) (C : List (List PyVal)),
      (∀ r ∈ C, r.length = H.length) → claimedInvariant (init H C) H) ∧
    (∀ (m : BaseScopeDataModel) (cols : List String) (C : List (List PyVal)),
      m.column_count = 1 + cols.length →
      (∀ r ∈ C, r.length = cols.length) →
      claimedInvariant (set_content m C) cols) ∧
    (∀ (m : BaseScopeDataModel) (cols : List String) (v : PyVal) (r c : Int)
      (m2 : BaseScopeDataModel),
      claimedInvariant m cols → setValueAt m v r c = Except.ok m2 →
      claimedInvariant m2 cols) ∧
    (∀ (m : BaseScopeDataModel) (columns : List String),
      getColumnCount (set_header m columns) = columns.length ∧
      (set_header m columns).header.length = columns.length + 1) := by
  refine ⟨?_, ?_, ?_, ?_⟩
  · intro H C hC
    constructor
    · intro row hrow
      simp only [BaseScopeDataModel.init] at hrow
      rcases List.mem_map.mp hrow with ⟨item, hitem, hrow2⟩
      rw [← hrow2]
      simp [BaseScopeDataModel.init, hC item hitem]
    · simp [BaseScopeDataModel.init, Nat.add_comm]
  · intro m cols C hcc hC
    constructor
    · intro row hrow
      simp only [BaseScopeDataModel.set_content] at hrow
      rcases List.mem_map.mp hrow with ⟨item, hitem, hrow2⟩
      rw [← hrow2]
      simp [BaseScopeDataModel.set_content, hcc, hC item hitem, Nat.add_comm]
    · simpa [BaseScopeDataModel.set_content] using hcc
  · intro m cols v r c m2 hinv hok
    unfold BaseScopeDataModel.setValueAt at hok
    cases h1 : pyGet m.content r with
    | none => rw [h1] at hok; exact absurd hok (by simp)
    | some row =>
      rw [h1] at hok
      replace hok : (match pySet row c v with
        | none => (Except.error PyErr.indexError : Except PyErr BaseScopeDataModel)
        | some row2 =>
          match pySet m.content r row2 with
          | none => Except.error PyErr.indexError
          | some content2 => Except.ok { m with content := content2 }) = Except.ok m2 := hok
      cases h2 : pySet row c v with
      | none => rw [h2] at hok; exact absurd hok (by simp)
      | some row2 =>
        rw [h2] at hok
        replace hok : (match pySet m.content r row2 with
          | none => (Except.error PyErr.indexError : Except PyErr BaseScopeDataModel)
          | some content2 => Except.ok { m with content := content2 }) = Except.ok m2 := hok
        cases h3 : pySet m.content r row2 with
        | none => rw [h3] at hok; exact absurd hok (by simp)
        | some content2 =>
          rw [h3] at hok
          replace hok : Except.ok { m with content := content2 } = Except.ok m2 := hok
          obtain ⟨j1, hj1, hj1b, hget⟩ := pyGet_some m.content r row h1
          obtain ⟨j2, hj2idx, hj2⟩ := pySet_some row c v row2 h2
          obtain ⟨j3, hj3idx, hj3⟩ := pySet_some m.content r row2 content2 h3
          have hjj : j3 = j1 := by rw [hj1] at hj3idx; exact (Option.some.inj hj3idx).symm
          have hm2 : m2 = { m with content := content2 } := (Except.ok.inj hok).symm
          constructor
          · intro rw2 hrw2
            have hrw2b : rw2 ∈ m.content.set j3 row2 := by
              rw [hm2] at hrw2
              simpa [hj3] using hrw2
            have hrowmem : row ∈ m.content := by
              obtain ⟨hb, hbe⟩ := List.getElem?_eq_some_iff.mp hget
              rw [← hbe]
              exact List.getElem_mem hb
            have hrowlen : row2.length = m.column_count := by
              rw [hj2, List.length_set]
              exact hinv.1 row hrowmem
            have hlen := forall_mem_set hinv.1 hrowlen rw2 hrw2b
            rw [hm2]
            exact hlen
          · rw [hm2]
            exact hinv.2
  · intro m columns
    exact ⟨rfl, by simp [BaseScopeDataModel.set_header]⟩

/-- C2 witness: the amended invariant at concrete inputs. -/
theorem claim_C2_witness :
    claimedInvariant (init ["A"] [[PyVal.int 5]]) ["A"] ∧
    claimedInvariant (set_content (init ["A"] [[PyVal.int 5]]) [[PyVal.int 7]]) ["A"] ∧
    getColumnCount (set_header (init ["A"] [[PyVal.int 5]]) ["X", "Y"]) = 2 := by
  refine ⟨claim_C2_amended.1 ["A"] [[PyVal.int 5]] (by decide), ?_, ?_⟩
  · exact claim_C2_amended.2.1 (init ["A"] [[PyVal.int 5]]) ["A"] [[PyVal.int 7]] (by decide)
      (by decide)
  · exact (claim_C2_amended.2.2.2 (init ["A"] [[PyVal.int 5]]) ["X", "Y"]).1

/-- C8: the sampled classification works for bool, float and int samples and
for the empty table, but a string (or any other unrecognised) sample makes
`get_type_at` raise `TypeError` -- `isinstance(value, time)` passes the
imported `time` module where a class is required -- instead of returning the
text tag the spec promises. -/
theorem claim_C8 :
    get_type_at (init ["Name"] [[PyVal.str ("abc")]]) 1 = Except.error PyErr.typeError ∧
    get_type_at (init ["Name"] [[PyVal.obj 0]]) 1 = Except.error PyErr.typeError ∧
    get_type_at (init ["Name"] [[PyVal.bool true]]) 1 = Except.ok JavaClass.Boolean ∧
    get_type_at (init ["Name"] [[PyVal.int 3]]) 1 = Except.ok JavaClass.Integer ∧
    get_type_at (init ["Name"] [[PyVal.float 1]]) 1 = Except.ok JavaClass.Float ∧
    get_type_at (init ["Name"] []) 1 = Except.ok JavaClass.String ∧
    get_type_at (init ["Name"] [[PyVal.str ("abc")]]) 0 = Except.ok JavaClass.Boolean := by
  refine ⟨by decide, by decide, by decide, by decide, ?_, by decide, by decide⟩
  rfl

/-- Full description of `_update_all_rows` on a reachable-shape model. -/
lemma update_all_rows_ok (m : BaseScopeDataModel) (v : PyVal)
    (hrc : m.row_count = m.content.length)
    (hrows : ∀ r ∈ m.content, r ≠ []) :
    ∃ m2, update_all_rows m v = Except.ok m2 ∧
      m2.header = m.header ∧
      m2.column_count = m.column_count ∧
      m2.row_count = m.row_count ∧
      m2.content.length = m.content.length ∧
      (∀ (r : Nat) (hr : r < m.content.length), getValueAt m2 (r : Int) 0 = some v) ∧
      (∀ r c : Nat, c ≠ 0 →
        getValueAt m2 (r : Int) (c : Int) = getValueAt m (r : Int) (c : Int)) := by
  have hb : ∀ j ∈ List.range (getRowCount m), j < m.content.length := by
    intro j hj
    rw [BaseScopeDataModel.getRowCount, hrc] at hj
    exact List.mem_range.mp hj
  obtain ⟨c2, hrun, hlen, hpt⟩ := run_flag_updates_ok v (List.range (getRowCount m)) m hb hrows
  refine ⟨{ m with content := c2 }, hrun, rfl, rfl, rfl, hlen, ?_, ?_⟩
  · intro r hr
    have hmem : r ∈ List.range (getRowCount m) := by
      rw [BaseScopeDataModel.getRowCount, hrc]
      exact List.mem_range.mpr hr
    rw [show (0 : Int) = ((0 : Nat) : Int) from rfl, getValueAt_natCast]
    have : c2[r]? = some (set_flag v (m.content[r])) := by
      rw [hpt r, if_pos hmem, List.getElem?_eq_getElem hr]
      rfl
    rw [this]
    exact set_flag_getElem_zero v _ (hrows _ (List.getElem_mem hr))
  · intro r c hc
    rw [getValueAt_natCast, getValueAt_natCast]
    by_cases hr : r < m.content.length
    · have hmem : r ∈ List.range (getRowCount m) := by
        rw [BaseScopeDataModel.getRowCount, hrc]
        exact List.mem_range.mpr hr
      have : c2[r]? = some (set_flag v (m.content[r])) := by
        rw [hpt r, if_pos hmem, List.getElem?_eq_getElem hr]
        rfl
      rw [this, List.getElem?_eq_getElem hr]
      simp [set_flag_getElem_ne v _ c hc]
    · have hnone : m.content[r]? = none := List.getElem?_eq_none (Nat.le_of_not_lt hr)
      have hmem : r ∉ List.range (getRowCount m) := by
        rw [BaseScopeDataModel.getRowCount, hrc]
        intro hx
        exact hr (List.mem_range.mp hx)
      rw [hpt r, if_neg hmem, hnone]

/-- C5: "Check all rows" sets every flag cell to `True` and "Uncheck all
rows" sets every flag cell to `False`, regardless of the prior flags, and
neither touches any cell outside column 0 (nor the header or the counts). -/
theorem claim_C5 (m : BaseScopeDataModel)
    (hrc : m.row_count = m.content.length)
    (hrows : ∀ r ∈ m.content, r ≠ []) :
    ∃ mt mf, select_all_menu_pressed m = Except.ok mt ∧
      unselect_all_menu_pressed m = Except.ok mf ∧
      mt.header = m.header ∧ mf.header = m.header ∧
      mt.column_count = m.column_count ∧ mf.column_count = m.column_count ∧
      mt.row_count = m.row_count ∧ mf.row_count = m.row_count ∧
      mt.content.length = m.content.length ∧ mf.content.length = m.content.length ∧
      (∀ (r : Nat) (hr : r < m.content.length),
        getValueAt mt (r : Int) 0 = some (PyVal.bool true) ∧
        getValueAt mf (r : Int) 0 = some (PyVal.bool false)) ∧
      (∀ r c : Nat, c ≠ 0 →
        getValueAt mt (r : Int) (c : Int) = getValueAt m (r : Int) (c : Int) ∧
        getValueAt mf (r : Int) (c : Int) = getValueAt m (r : Int) (c : Int)) := by
  obtain ⟨mt, ht1, ht2, ht3, ht4, ht5, ht6, ht7⟩ :=
    update_all_rows_ok m (PyVal.bool true) hrc hrows
  obtain ⟨mf, hf1, hf2, hf3, hf4, hf5, hf6, hf7⟩ :=
    update_all_rows_ok m (PyVal.bool false) hrc hrows
  exact ⟨mt, mf, ht1, hf1, ht2, hf2, ht3, hf3, ht4, hf4, ht5, hf5,
    fun r hr => ⟨ht6 r hr, hf6 r hr⟩,
    fun r c hc => ⟨ht7 r c hc, hf7 r c hc⟩⟩

/-- C5 witness: both bulk actions on a concrete two-row model. -/
theorem claim_C5_witness :
    ∃ mt mf, select_all_menu_pressed (init ["A"] [[PyVal.int 1], [PyVal.int 2]]) = Except.ok mt ∧
      unselect_all_menu_pressed (init ["A"] [[PyVal.int 1], [PyVal.int 2]]) = Except.ok mf ∧
      getValueAt mt 0 0 = some (PyVal.bool true) ∧
      getValueAt mt 1 0 = some (PyVal.bool true) ∧
      getValueAt mf 1 0 = some (PyVal.bool false) ∧
      getValueAt mt 1 1 = getValueAt (init ["A"] [[PyVal.int 1], [PyVal.int 2]]) 1 1 := by
  obtain ⟨mt, mf, h1, h2, _, _, _, _, _, _, _, _, hflag, hframe⟩ :=
    claim_C5 (init ["A"] [[PyVal.int 1], [PyVal.int 2]]) (by decide) (by decide)
  refine ⟨mt, mf, h1, h2, ?_, ?_, ?_, ?_⟩
  · simpa using (hflag 0 (by decide)).1
  · simpa using (hflag 1 (by decide)).1
  · simpa using (hflag 1 (by decide)).2
  · simpa using (hframe 1 1 (by decide)).1

/-- C6: with boolean flags, "Invert selection" applied twice restores the
model exactly; a single application already leaves every cell outside
column 0 unchanged. -/
theorem claim_C6 (m : BaseScopeDataModel)
    (hrc : m.row_count = m.content.length)
    (hrows : ∀ r ∈ m.content, ∃ b t, r = PyVal.bool b :: t) :
    ∃ m1, invert_selection_menu_pressed m = Except.ok m1 ∧
      m1.header = m.header ∧ m1.column_count = m.column_count ∧ m1.row_count = m.row_count ∧
      (∀ r c : Nat, c ≠ 0 →
        getValueAt m1 (r : Int) (c : Int) = getValueAt m (r : Int) (c : Int)) ∧
      invert_selection_menu_pressed m1 = Except.ok m := by
  have hrows0 : ∀ r ∈ m.content, r ≠ [] := by
    intro r hr
    obtain ⟨b, t, he⟩ := hrows r hr
    rw [he]
    simp
  have hb1 : ∀ j ∈ List.range m.row_count, j < m.content.length := by
    intro j hj
    rw [hrc] at hj
    exact List.mem_range.mp hj
  obtain ⟨c2, hrun, hlen, hpt⟩ :=
    invert_rows_ok (List.range m.row_count) m (List.nodup_range m.row_count) hb1 hrows0
  have hc2get : ∀ (k : Nat) (hk : k < m.content.length),
      c2[k]? = some (flip_flag (m.content[k])) := by
    intro k hk
    have hkm : k ∈ List.range m.row_count := List.mem_range.mpr (by rw [hrc]; exact hk)
    rw [hpt k, if_pos hkm, List.getElem?_eq_getElem hk]
    rfl
  have hc2out : ∀ k : Nat, ¬ k < m.content.length → c2[k]? = m.content[k]? := by
    intro k hk
    have hkm : k ∉ List.range m.row_count := by
      intro hx
      exact hk (by rw [← hrc]; exact List.mem_range.mp hx)
    rw [hpt k, if_neg hkm]
  refine ⟨{ m with content := c2 }, hrun, rfl, rfl, rfl, ?_, ?_⟩
  · intro r c hc
    rw [getValueAt_natCast, getValueAt_natCast]
    by_cases hr : r < m.content.length
    · rw [hc2get r hr, List.getElem?_eq_getElem hr]
      simp [flip_flag_getElem_ne _ c hc]
    · rw [hc2out r hr, List.getElem?_eq_none (Nat.le_of_not_lt hr)]
  · have hb2 : ∀ j ∈ List.range m.row_count,
        j < (({ m with content := c2 } : BaseScopeDataModel)).content.length := by
      intro j hj
      have : j < m.content.length := hb1 j hj
      simpa [hlen] using this
    have hrows2 : ∀ r ∈ (({ m with content := c2 } : BaseScopeDataModel)).content, r ≠ [] := by
      intro r hr
      replace hr : r ∈ c2 := hr
      obtain ⟨k, hk⟩ := List.mem_iff_getElem?.mp hr
      by_cases hkl : k < m.content.length
      · rw [hc2get k hkl] at hk
        obtain ⟨b, t, he⟩ := hrows _ (List.getElem_mem hkl)
        have : r = flip_flag (m.content[k]) := (Option.some.inj hk).symm
        rw [this, he]
        simp [flip_flag]
      · rw [hc2out k hkl] at hk
        exact hrows0 r (List.mem_iff_getElem?.mpr ⟨k, hk⟩)
    obtain ⟨c3, hrun2, hlen2, hpt2⟩ :=
      invert_rows_ok (List.range m.row_count) { m with content := c2 }
        (List.nodup_range m.row_count) hb2 hrows2
    have hc3 : c3 = m.content := by
      apply List.ext_getElem?
      intro k
      have hpt2k : c3[k]? =
          if k ∈ List.range m.row_count then (c2[k]?).map flip_flag else c2[k]? := hpt2 k
      by_cases hk : k < m.content.length
      · have hkm : k ∈ List.range m.row_count := List.mem_range.mpr (by rw [hrc]; exact hk)
        obtain ⟨b, t, he⟩ := hrows _ (List.getElem_mem hk)
        rw [hpt2k, if_pos hkm, hc2get k hk, List.getElem?_eq_getElem hk]
        simp [flip_flag_flip_flag (m.content[k]) b t he]
      · have hkm : k ∉ List.range m.row_count := by
          intro hx
          exact hk (by rw [← hrc]; exact List.mem_range.mp hx)
        rw [hpt2k, if_neg hkm, hc2out k hk]
    rw [hc3] at hrun2
    exact hrun2

/-- C6 witness: a concrete two-row model round-trips under double
inversion. -/
theorem claim_C6_witness :
    ∃ m1, invert_selection_menu_pressed
        (init ["A"] [[PyVal.int 1], [PyVal.int 2]]) = Except.ok m1 ∧
      getValueAt m1 0 1 = getValueAt (init ["A"] [[PyVal.int 1], [PyVal.int 2]]) 0 1 ∧
      invert_selection_menu_pressed m1 =
        Except.ok (init ["A"] [[PyVal.int 1], [PyVal.int 2]]) := by
  obtain ⟨m1, h1, _, _, _, hframe, h2⟩ :=
    claim_C6 (init ["A"] [[PyVal.int 1], [PyVal.int 2]]) (by decide)
      (by
        intro r hr
        simp only [BaseScopeDataModel.init, List.map_cons, List.map_nil, List.mem_cons,
          List.not_mem_nil, or_false] at hr
        rcases hr with h | h
        · exact ⟨false, [PyVal.int 1], h⟩
        · exact ⟨false, [PyVal.int 2], h⟩)
  exact ⟨m1, h1, by simpa using hframe 0 1 (by decide), h2⟩

/-- C7: "Check all selected rows" translates every selected view row through
`convertRowIndexToModel` and sets exactly those model rows' flags to `True`;
every untranslated row and every cell outside column 0 is untouched. -/
theorem claim_C7 (m : BaseScopeDataModel) (selected_rows : List Int) (convert : Int → Int)
    (hrows : ∀ r ∈ m.content, r ≠ [])
    (hconv : ∀ s ∈ selected_rows, 0 ≤ convert s ∧ (convert s).toNat < m.content.length) :
    ∃ m2, select_all_selected_menu_pressed m selected_rows convert = Except.ok m2 ∧
      m2.header = m.header ∧
      m2.column_count = m.column_count ∧
      m2.row_count = m.row_count ∧
      m2.content.length = m.content.length ∧
      (∀ (k : Nat) (hk : k < m.content.length),
        ((∃ s ∈ selected_rows, convert s = (k : Int)) →
          getValueAt m2 (k : Int) 0 = some (PyVal.bool true)) ∧
        ((¬ ∃ s ∈ selected_rows, convert s = (k : Int)) →
          getValueAt m2 (k : Int) 0 = getValueAt m (k : Int) 0)) ∧
      (∀ k c : Nat, c ≠ 0 →
        getValueAt m2 (k : Int) (c : Int) = getValueAt m (k : Int) (c : Int)) := by
  have hmap : ((selected_rows.map (fun s => (convert s).toNat)).map (fun j : Nat => (j : Int))) =
      selected_rows.map convert := by
    rw [List.map_map]
    apply List.map_congr_left
    intro s hs
    exact Int.toNat_of_nonneg (hconv s hs).1
  have hb : ∀ j ∈ selected_rows.map (fun s => (convert s).toNat), j < m.content.length := by
    intro j hj
    rcases List.mem_map.mp hj with ⟨s, hs, he⟩
    rw [← he]
    exact (hconv s hs).2
  obtain ⟨c2, hrun, hlen, hpt⟩ :=
    run_flag_updates_ok (PyVal.bool true) (selected_rows.map (fun s => (convert s).toNat))
      m hb hrows
  rw [hmap] at hrun
  have hmem_iff : ∀ k : Nat, (k ∈ selected_rows.map (fun s => (convert s).toNat) ↔
      ∃ s ∈ selected_rows, convert s = (k : Int)) := by
    intro k
    constructor
    · intro hk
      rcases List.mem_map.mp hk with ⟨s, hs, he⟩
      have := (hconv s hs).1
      exact ⟨s, hs, by omega⟩
    · rintro ⟨s, hs, he⟩
      exact List.mem_map.mpr ⟨s, hs, by omega⟩
  refine ⟨{ m with content := c2 }, hrun, rfl, rfl, rfl, hlen, ?_, ?_⟩
  · intro k hk
    constructor
    · intro hsel
      rw [show (0 : Int) = ((0 : Nat) : Int) from rfl, getValueAt_natCast]
      have : c2[k]? = some (set_flag (PyVal.bool true) (m.content[k])) := by
        rw [hpt k, if_pos ((hmem_iff k).mpr hsel), List.getElem?_eq_getElem hk]
        rfl
      rw [this]
      exact set_flag_getElem_zero _ _ (hrows _ (List.getElem_mem hk))
    · intro hsel
      rw [show (0 : Int) = ((0 : Nat) : Int) from rfl, getValueAt_natCast, getValueAt_natCast]
      rw [hpt k, if_neg (fun hx => hsel ((hmem_iff k).mp hx))]
  · intro k c hc
    rw [getValueAt_natCast, getValueAt_natCast]
    by_cases hk : k < m.content.length
    · rw [hpt k]
      by_cases hin : k ∈ selected_rows.map (fun s => (convert s).toNat)
      · rw [if_pos hin, List.getElem?_eq_getElem hk]
        simp [set_flag_getElem_ne _ _ c hc]
      · rw [if_neg hin]
    · rw [hpt k]
      by_cases hin : k ∈ selected_rows.map (fun s => (convert s).toNat)
      · exact absurd (hb k hin) hk
      · rw [if_neg hin]

/-- C7 witness: a five-row model viewed under a descending sort
(`convert i = 4 - i`), with view rows 2 and 4 selected, checks exactly model
rows 2 and 0. -/
theorem claim_C7_witness :
    ∃ m2, select_all_selected_menu_pressed
        (init ["A"] [[PyVal.int 10], [PyVal.int 11], [PyVal.int 12], [PyVal.int 13],
          [PyVal.int 14]])
        [2, 4] (fun i => 4 - i) = Except.ok m2 ∧
      getValueAt m2 2 0 = some (PyVal.bool true) ∧
      getValueAt m2 0 0 = some (PyVal.bool true) ∧
      getValueAt m2 1 0 =
        getValueAt (init ["A"] [[PyVal.int 10], [PyVal.int 11], [PyVal.int 12], [PyVal.int 13],
          [PyVal.int 14]]) 1 0 ∧
      getValueAt m2 2 1 =
        getValueAt (init ["A"] [[PyVal.int 10], [PyVal.int 11], [PyVal.int 12], [PyVal.int 13],
          [PyVal.int 14]]) 2 1 := by
  obtain ⟨m2, h1, _, _, _, _, hflag, hframe⟩ :=
    claim_C7 (init ["A"] [[PyVal.int 10], [PyVal.int 11], [PyVal.int 12], [PyVal.int 13],
        [PyVal.int 14]])
      [2, 4] (fun i => 4 - i) (by decide) (by decide)
  refine ⟨m2, h1, ?_, ?_, ?_, ?_⟩
  · simpa using (hflag 2 (by decide)).1 ⟨2, by decide, by decide⟩
  · simpa using (hflag 0 (by decide)).1 ⟨4, by decide, by decide⟩
  · simpa using (hflag 1 (by decide)).2 (by decide)
  · simpa using hframe 2 1 (by decide)
